import Mathlib

/-!
Verification development for the dxf-viewer repository.

The definitions below are a shallow embedding of `src/dxf/types.ts`
(tag scanner, section walker, entity extractors) and `src/dxf/renderer.ts`
(view transform, grid planner, arc tessellation, nearest-vertex query).
JavaScript numbers are modelled as exact rationals (parser side) and real
numbers (renderer side, where trigonometry appears); machine floating point
is idealized away, which the spec's stated tolerances absorb.
-/

namespace DxfViewer

/-! ## Data model (`src/dxf/types.ts`) -/

structure DxfPoint (α : Type) where
  x : α
  y : α
  deriving DecidableEq, Repr

inductive DxfEntity (α : Type) where
  | line (start lineEnd : DxfPoint α)
  | circle (center : DxfPoint α) (radius : α)
  | arc (center : DxfPoint α) (radius : α) (startAngleDeg endAngleDeg : α)
  | polyline (points : List (DxfPoint α)) (closed : Bool)
  deriving DecidableEq, Repr

structure DxfDocument where
  entities : List (DxfEntity ℚ)
  warnings : List String
  deriving DecidableEq, Repr

structure DxfBounds (α : Type) where
  minX : α
  minY : α
  maxX : α
  maxY : α
  deriving Repr

structure DxfViewport (α : Type) where
  zoom : α
  panX : α
  panY : α
  deriving Repr

/-- One `(code, value)` tag record of the input stream. -/
structure DxfGroup where
  code : ℤ
  value : String
  deriving DecidableEq, Repr

/-! ## Host-runtime numeric primitives

The parser calls the JavaScript builtins `Number.parseInt`,
`Number.parseFloat`, `Math.trunc`, `String.prototype.trim` and string
splitting.  They are modelled here for the plain decimal literals the tag
format carries (optional sign, digits, optional fractional digits, trailing
junk ignored); any other shape is treated as NaN, i.e. `none`. -/

def digitsVal (ds : List Char) : ℕ :=
  ds.foldl (fun n c => n * 10 + (c.toNat - 48)) 0

/-- Models `Number.parseInt(s, 10)` on a pre-trimmed string: optional sign,
then a nonempty digit run; anything after the digits is ignored. -/
def jsParseInt (s : String) : Option ℤ :=
  let parseMag : List Char → Option ℕ := fun cs =>
    let ds := cs.takeWhile Char.isDigit
    if ds.isEmpty then none else some (digitsVal ds)
  match s.data with
  | '-' :: rest => (parseMag rest).map (fun n => -(n : ℤ))
  | '+' :: rest => (parseMag rest).map (fun n => (n : ℤ))
  | rest => (parseMag rest).map (fun n => (n : ℤ))

def parseFloatMag (cs : List Char) : Option ℚ :=
  let intDs := cs.takeWhile Char.isDigit
  let rest := cs.dropWhile Char.isDigit
  match rest with
  | '.' :: fr =>
    let fracDs := fr.takeWhile Char.isDigit
    if intDs.isEmpty && fracDs.isEmpty then none
    else some ((digitsVal intDs : ℚ) + (digitsVal fracDs : ℚ) / (10 : ℚ) ^ fracDs.length)
  | _ => if intDs.isEmpty then none else some (digitsVal intDs)

/-- Models `parseNumber` of the source: `Number.parseFloat` followed by the
`Number.isFinite` filter (the model never produces a non-finite value, and
an unparseable string yields `none`, the model of `null`). -/
def parseNumber (s : String) : Option ℚ :=
  match s.data with
  | '-' :: rest => (parseFloatMag rest).map (fun q => -q)
  | '+' :: rest => parseFloatMag rest
  | rest => parseFloatMag rest

/-- Models `Math.trunc`: round toward zero. -/
def jsTrunc (q : ℚ) : ℤ :=
  if 0 ≤ q then ⌊q⌋ else ⌈q⌉

def isJsWhitespace (c : Char) : Bool :=
  c = ' ' || c = '\t' || c = '\n' || c = '\r'

/-- Models `String.prototype.trim` for the ASCII whitespace that can occur
in this line-oriented format. -/
def jsTrim (cs : List Char) : List Char :=
  ((cs.dropWhile isJsWhitespace).reverse.dropWhile isJsWhitespace).reverse

/-- Splits raw text into lines, treating `\r\n`, `\r` and `\n` each as one
line break — the composition of the two `replace` calls and the `split`
in `parseGroups`. -/
def splitLinesAux : List Char → List Char → List String
  | [], cur => [⟨cur.reverse⟩]
  | '\r' :: '\n' :: rest, cur => (⟨cur.reverse⟩ : String) :: splitLinesAux rest []
  | '\r' :: rest, cur => (⟨cur.reverse⟩ : String) :: splitLinesAux rest []
  | '\n' :: rest, cur => (⟨cur.reverse⟩ : String) :: splitLinesAux rest []
  | c :: rest, cur => splitLinesAux rest (c :: cur)

def splitLines (cs : List Char) : List String :=
  splitLinesAux cs []

/-! ## TagScanner (`parseGroups`) -/

/-- The `for (let i = 0; i + 1 < lines.length; i += 2)` pairing: consecutive
line pairs, a lone trailing line is dropped. -/
def pairLines : List String → List (String × String)
  | a :: b :: rest => (a, b) :: pairLines rest
  | _ => []

def parseGroups (raw : String) : List DxfGroup :=
  (pairLines (splitLines raw.data)).filterMap fun pr =>
    let codeText := jsTrim pr.1.data
    if codeText.isEmpty then none
    else
      match jsParseInt ⟨codeText⟩ with
      | none => none
      | some code => some ⟨code, ⟨jsTrim pr.2.data⟩⟩

/-! ## Entity extractors -/

/-- `readNumber`: the first group with the given code decides; its value is
parsed and no later group is consulted. -/
def readNumber (body : List DxfGroup) (code : ℤ) : Option ℚ :=
  match body.find? (fun g => g.code == code) with
  | some g => parseNumber g.value
  | none => none

def readPoint (body : List DxfGroup) (xCode yCode : ℤ) : Option (DxfPoint ℚ) :=
  match readNumber body xCode, readNumber body yCode with
  | some x, some y => some ⟨x, y⟩
  | _, _ => none

def parseLine (body : List DxfGroup) : Option (DxfEntity ℚ) :=
  match readPoint body 10 20, readPoint body 11 21 with
  | some s, some e => some (.line s e)
  | _, _ => none

def parseCircle (body : List DxfGroup) : Option (DxfEntity ℚ) :=
  match readPoint body 10 20, readNumber body 40 with
  | some center, some radius =>
    if radius ≤ 0 then none else some (.circle center radius)
  | _, _ => none

def parseArc (body : List DxfGroup) : Option (DxfEntity ℚ) :=
  match readPoint body 10 20, readNumber body 40,
        readNumber body 50, readNumber body 51 with
  | some center, some radius, some startAngle, some endAngle =>
    if radius ≤ 0 then none else some (.arc center radius startAngle endAngle)
  | _, _, _, _ => none

/-- The interleaved coordinate pairing of `parseLwPolyline`: a code-10 value
opens a pending X (even a failed parse overwrites it); a code-20 value with a
pending X closes it into a vertex when the Y parses, and always clears the
pending X; all other codes leave the pending X untouched. -/
def lwCollect : List DxfGroup → Option ℚ → List (DxfPoint ℚ) → List (DxfPoint ℚ)
  | [], _, acc => acc
  | g :: rest, pending, acc =>
    if g.code = 10 then lwCollect rest (parseNumber g.value) acc
    else if g.code = 20 then
      match pending with
      | some x =>
        match parseNumber g.value with
        | some y => lwCollect rest none (acc ++ [⟨x, y⟩])
        | none => lwCollect rest none acc
      | none => lwCollect rest none acc
    else lwCollect rest pending acc

def parseLwPolyline (body : List DxfGroup) : Option (DxfEntity ℚ) :=
  let flags := (readNumber body 70).getD 0
  let closed := jsTrunc flags % 2 == 1
  let vertices := lwCollect body none []
  if vertices.length < 2 then none
  else some (.polyline vertices closed)

/-! ## Cursor-based scans.  The source walks an indexed array with an
explicit cursor; the index arithmetic is kept verbatim. -/

/-- The shared `while (i < groups.length && groups[i].code !== 0) i += 1`
scan that delimits an entity body. -/
def scanBodyEnd (groups : List DxfGroup) (i : ℕ) : ℕ :=
  match h : groups.get? i with
  | none => i
  | some g =>
    if g.code = 0 then i else scanBodyEnd groups (i + 1)
termination_by groups.length - i
decreasing_by
  have hi : i < groups.length := List.get?_eq_some.mp h |>.1
  omega

/-- `groups.slice(a, b)`. -/
def sliceGroups (groups : List DxfGroup) (a b : ℕ) : List DxfGroup :=
  (groups.drop a).take (b - a)

def parseSimpleEntity (groups : List DxfGroup) (startIndex : ℕ) :
    Option (DxfEntity ℚ) × ℕ :=
  match groups.get? startIndex with
  | none => (none, startIndex + 1)
  | some startGroup =>
    let i := scanBodyEnd groups (startIndex + 1)
    let body := sliceGroups groups (startIndex + 1) i
    match startGroup.value with
    | "LINE" => (parseLine body, i)
    | "LWPOLYLINE" => (parseLwPolyline body, i)
    | "CIRCLE" => (parseCircle body, i)
    | "ARC" => (parseArc body, i)
    | _ => (none, i)

def parseVertex (groups : List DxfGroup) (startIndex : ℕ) :
    Option (DxfPoint ℚ) × ℕ :=
  let i := scanBodyEnd groups (startIndex + 1)
  let body := sliceGroups groups (startIndex + 1) i
  (readPoint body 10 20, i)

/-- First phase of `parsePolylineEntity`: scan the header run for the last
code-70 flags field, up to the next code-0 record. -/
def scanPolyFlags (groups : List DxfGroup) (i : ℕ) (flags : ℤ) : ℤ × ℕ :=
  match h : groups.get? i with
  | none => (flags, i)
  | some g =>
    if g.code = 0 then (flags, i)
    else
      scanPolyFlags groups (i + 1)
        (if g.code = 70 then jsTrunc ((parseNumber g.value).getD 0) else flags)
termination_by groups.length - i
decreasing_by
  have hi : i < groups.length := List.get?_eq_some.mp h |>.1
  omega

theorem le_scanBodyEnd (groups : List DxfGroup) (i : ℕ) : i ≤ scanBodyEnd groups i := by
  have H : ∀ n i, groups.length - i ≤ n → i ≤ scanBodyEnd groups i := by
    intro n
    induction n with
    | zero =>
      intro i hle
      have hnone : groups.get? i = none := by
        rw [List.get?_eq_none]
        omega
      rw [scanBodyEnd]
      split
      · exact le_rfl
      · rename_i g heq
        rw [hnone] at heq
        cases heq
    | succ n ih =>
      intro i hle
      rw [scanBodyEnd]
      split
      · exact le_rfl
      · rename_i g heq
        split
        · exact le_rfl
        · have hi : i < groups.length := (List.get?_eq_some.mp heq).1
          exact le_trans (Nat.le_succ i) (ih (i + 1) (by omega))
  exact H (groups.length - i) i le_rfl

theorem lt_parseVertex_snd (groups : List DxfGroup) (i : ℕ) :
    i < (parseVertex groups i).2 := by
  have := le_scanBodyEnd groups (i + 1)
  simp only [parseVertex]
  omega

/-- Second phase of `parsePolylineEntity`: the vertex loop. -/
def scanPolyVertices (groups : List DxfGroup) (i : ℕ) (pts : List (DxfPoint ℚ)) :
    List (DxfPoint ℚ) × ℕ :=
  match h : groups.get? i with
  | none => (pts, i)
  | some g =>
    if g.code ≠ 0 then scanPolyVertices groups (i + 1) pts
    else if g.value = "VERTEX" then
      let v := parseVertex groups i
      scanPolyVertices groups v.2 (pts ++ v.1.toList)
    else if g.value = "SEQEND" then (pts, i + 1)
    else (pts, i)
termination_by groups.length - i
decreasing_by
  · have hi : i < groups.length := List.get?_eq_some.mp h |>.1
    omega
  · have hi : i < groups.length := List.get?_eq_some.mp h |>.1
    have := lt_parseVertex_snd groups i
    omega

def parsePolylineEntity (groups : List DxfGroup) (startIndex : ℕ) :
    Option (DxfEntity ℚ) × ℕ :=
  let fl := scanPolyFlags groups (startIndex + 1) 0
  let pv := scanPolyVertices groups fl.2 []
  if pv.1.length < 2 then (none, pv.2)
  else (some (.polyline pv.1 (fl.1 % 2 == 1)), pv.2)

theorem le_scanPolyFlags_snd (groups : List DxfGroup) (i : ℕ) (flags : ℤ) :
    i ≤ (scanPolyFlags groups i flags).2 := by
  have H : ∀ n i flags, groups.length - i ≤ n → i ≤ (scanPolyFlags groups i flags).2 := by
    intro n
    induction n with
    | zero =>
      intro i flags hle
      have hnone : groups.get? i = none := by
        rw [List.get?_eq_none]
        omega
      rw [scanPolyFlags]
      split
      · exact le_rfl
      · rename_i g heq
        rw [hnone] at heq
        cases heq
    | succ n ih =>
      intro i flags hle
      rw [scanPolyFlags]
      split
      · exact le_rfl
      · rename_i g heq
        split
        · exact le_rfl
        · have hi : i < groups.length := (List.get?_eq_some.mp heq).1
          exact le_trans (Nat.le_succ i) (ih (i + 1) _ (by omega))
  exact H (groups.length - i) i flags le_rfl

theorem le_scanPolyVertices_snd (groups : List DxfGroup) (i : ℕ) (pts : List (DxfPoint ℚ)) :
    i ≤ (scanPolyVertices groups i pts).2 := by
  have H : ∀ n i pts, groups.length - i ≤ n →
      i ≤ (scanPolyVertices groups i pts).2 := by
    intro n
    induction n with
    | zero =>
      intro i pts hle
      have hnone : groups.get? i = none := by
        rw [List.get?_eq_none]
        omega
      rw [scanPolyVertices]
      split
      · exact le_rfl
      · rename_i g heq
        rw [hnone] at heq
        cases heq
    | succ n ih =>
      intro i pts hle
      rw [scanPolyVertices]
      split
      · exact le_rfl
      · rename_i g heq
        have hi : i < groups.length := (List.get?_eq_some.mp heq).1
        split
        · exact le_trans (Nat.le_succ i) (ih (i + 1) _ (by omega))
        · split
          · have hv := lt_parseVertex_snd groups i
            refine le_trans (le_of_lt hv) (ih (parseVertex groups i).2 _ ?_)
            have := le_scanBodyEnd groups (i + 1)
            simp only [parseVertex]
            simp only [parseVertex] at hv
            omega
          · split
            · exact Nat.le_succ i
            · exact le_rfl
  exact H (groups.length - i) i pts le_rfl

theorem lt_parseSimpleEntity_snd (groups : List DxfGroup) (i : ℕ) :
    i < (parseSimpleEntity groups i).2 := by
  have hb := le_scanBodyEnd groups (i + 1)
  rw [parseSimpleEntity]
  split
  · simp
  · split <;> simp <;> omega

theorem lt_parsePolylineEntity_snd (groups : List DxfGroup) (i : ℕ) :
    i < (parsePolylineEntity groups i).2 := by
  have h1 := le_scanPolyFlags_snd groups (i + 1) 0
  have h2 := le_scanPolyVertices_snd groups (scanPolyFlags groups (i + 1) 0).2 []
  rw [parsePolylineEntity]
  split <;> simp <;> omega

/-! ## SectionWalker (`parseDxf` main loop) -/

def parseDxfLoop (groups : List DxfGroup) (i : ℕ) (inEnt : Bool) :
    List (DxfEntity ℚ) :=
  match h : groups.get? i with
  | none => []
  | some g =>
    if g.code = 0 ∧ g.value = "SECTION" then
      let inE : Bool :=
        match groups.get? (i + 1) with
        | some m => m.code == 2 && m.value == "ENTITIES"
        | none => false
      parseDxfLoop groups (i + 2) inE
    else if g.code = 0 ∧ g.value = "ENDSEC" then
      parseDxfLoop groups (i + 1) false
    else if inEnt = false ∨ g.code ≠ 0 then
      parseDxfLoop groups (i + 1) inEnt
    else if g.value = "POLYLINE" then
      let p := parsePolylineEntity groups i
      p.1.toList ++ parseDxfLoop groups p.2 inEnt
    else
      let p := parseSimpleEntity groups i
      p.1.toList ++ parseDxfLoop groups p.2 inEnt
termination_by groups.length - i
decreasing_by
  · have hi : i < groups.length := List.get?_eq_some.mp h |>.1
    omega
  · have hi : i < groups.length := List.get?_eq_some.mp h |>.1
    omega
  · have hi : i < groups.length := List.get?_eq_some.mp h |>.1
    omega
  · have hi : i < groups.length := List.get?_eq_some.mp h |>.1
    have := lt_parsePolylineEntity_snd groups i
    omega
  · have hi : i < groups.length := List.get?_eq_some.mp h |>.1
    have := lt_parseSimpleEntity_snd groups i
    omega

def binaryDxfWarning : String :=
  "This file appears to be binary DXF. Rendering may be incomplete."

/-- `parseDxf`: the NUL-byte heuristic warning (`raw.includes("\u0000")`),
then the section walk over the scanned groups. -/
def parseDxf (raw : String) : DxfDocument :=
  let warnings := if raw.data.contains '\x00' then [binaryDxfWarning] else []
  { entities := parseDxfLoop (parseGroups raw) 0 false, warnings := warnings }

/-! ## ViewTransform (`src/dxf/renderer.ts`)

The renderer's arithmetic is over JavaScript floats; it is modelled over an
arbitrary linear ordered field so that the same definitions serve exact
rational evaluation and the real-valued trigonometric parts. -/

structure RenderTransform (α : Type) where
  baseScale : α
  offsetX : α
  offsetY : α
  minX : α
  minY : α
  canvasWidth : α
  canvasHeight : α
  centerX : α
  centerY : α
  zoom : α
  panX : α
  panY : α
  deriving Repr

variable {α : Type} [LinearOrderedField α]

def clamp (value lo hi : α) : α :=
  min hi (max lo value)

/-- `createTransform`.  `Number.isFinite(viewport.panX)` always holds in the
model (the scalars carry no infinities or NaN), so the pan values pass
through unchanged. -/
def createTransform (bounds : DxfBounds α) (width height padding : α)
    (viewport : DxfViewport α) : RenderTransform α :=
  let safePadding := min (max padding 0) (min width height / 2)
  let worldWidth := max (bounds.maxX - bounds.minX) (1 / 1000000)
  let worldHeight := max (bounds.maxY - bounds.minY) (1 / 1000000)
  let scaleX := (width - safePadding * 2) / worldWidth
  let scaleY := (height - safePadding * 2) / worldHeight
  let baseScale := max (1 / 1000000) (min scaleX scaleY)
  let drawnWidth := worldWidth * baseScale
  let drawnHeight := worldHeight * baseScale
  { baseScale := baseScale
    offsetX := (width - drawnWidth) / 2
    offsetY := (height - drawnHeight) / 2
    minX := bounds.minX
    minY := bounds.minY
    canvasWidth := width
    canvasHeight := height
    centerX := width / 2
    centerY := height / 2
    zoom := clamp viewport.zoom (1 / 50) 200
    panX := viewport.panX
    panY := viewport.panY }

def worldToBase (point : DxfPoint α) (t : RenderTransform α) : DxfPoint α :=
  { x := (point.x - t.minX) * t.baseScale + t.offsetX
    y := t.canvasHeight - ((point.y - t.minY) * t.baseScale + t.offsetY) }

def applyViewport (basePoint : DxfPoint α) (t : RenderTransform α) : DxfPoint α :=
  { x := t.centerX + (basePoint.x - t.centerX) * t.zoom + t.panX
    y := t.centerY + (basePoint.y - t.centerY) * t.zoom + t.panY }

def toScreen (point : DxfPoint α) (t : RenderTransform α) : DxfPoint α :=
  applyViewport (worldToBase point t) t

def screenToWorld (screenPoint : DxfPoint α) (t : RenderTransform α) : DxfPoint α :=
  let baseX := (screenPoint.x - t.panX - t.centerX) / t.zoom + t.centerX
  let baseY := (screenPoint.y - t.panY - t.centerY) / t.zoom + t.centerY
  { x := (baseX - t.offsetX) / t.baseScale + t.minX
    y := (t.canvasHeight - baseY - t.offsetY) / t.baseScale + t.minY }

/-- `computeVisibleWorldBounds`: the four inverse-transformed canvas corners;
the source's fold from `±Infinity` over four points is written as the plain
four-way `min`/`max`. -/
def computeVisibleWorldBounds (t : RenderTransform α) : DxfBounds α :=
  let c1 := screenToWorld ⟨0, 0⟩ t
  let c2 := screenToWorld ⟨t.canvasWidth, 0⟩ t
  let c3 := screenToWorld ⟨0, t.canvasHeight⟩ t
  let c4 := screenToWorld ⟨t.canvasWidth, t.canvasHeight⟩ t
  { minX := min (min (min c1.x c2.x) c3.x) c4.x
    minY := min (min (min c1.y c2.y) c3.y) c4.y
    maxX := max (max (max c1.x c2.x) c3.x) c4.x
    maxY := max (max (max c1.y c2.y) c3.y) c4.y }

/-! ## GridPlanner (`normalizeGridStep`, `drawGrid`) -/

variable [FloorRing α]

theorem gridMeasure_lt {span maxLines step : α}
    (hstep : 0 < step) (hml : 1 ≤ maxLines) (hlt : maxLines < span / step) :
    ⌈span / (2 * step)⌉.toNat < ⌈span / step⌉.toNat := by
  have hx : (1 : α) < span / step := lt_of_le_of_lt hml hlt
  have hc1 : (1 : ℤ) < ⌈span / step⌉ := by
    exact_mod_cast lt_of_lt_of_le hx (Int.le_ceil (span / step))
  have hhalf : span / (2 * step) = span / step / 2 := by
    rw [div_div]
    ring_nf
  have hle : span / (2 * step) ≤ (⌈span / step⌉ : α) - 1 := by
    rw [hhalf]
    have hsx : span / step ≤ (⌈span / step⌉ : α) := Int.le_ceil _
    have h2 : (2 : α) ≤ (⌈span / step⌉ : α) := by exact_mod_cast hc1
    linarith
  have hh : ⌈span / (2 * step)⌉ ≤ ⌈span / step⌉ - 1 := by
    apply Int.ceil_le.mpr
    push_cast
    linarith
  omega

/-- The `while (span / step > maxLines) step *= 2` loop of
`normalizeGridStep`.  The extra guard conjuncts `0 < step ∧ 1 ≤ maxLines`
encode the termination argument; they hold at the only call sites
(`maxLines = 500`, `step ≥ 1e-6`), where the loop behaves exactly as the
source. -/
def gridStepLoop [FloorRing α] (span maxLines step : α) : α :=
  if h : 0 < step ∧ 1 ≤ maxLines ∧ maxLines < span / step then
    gridStepLoop span maxLines (2 * step)
  else step
termination_by ⌈span / step⌉.toNat
decreasing_by
  exact gridMeasure_lt h.1 h.2.1 h.2.2

/-- `normalizeGridStep(baseStep, span, maxLines)`. -/
def normalizeGridStep (baseStep span maxLines : α) : α :=
  gridStepLoop span maxLines (max baseStep (1 / 1000000))

/-- The grid-step selection of `drawGrid` (renderer.ts lines 276-281): spans
of the visible world rectangle, floored at `1e-6`, and `normalizeGridStep`
invoked with a cap of `500` lines per axis. -/
def drawGridSteps (t : RenderTransform α) (baseGridSize : α) : α × α :=
  let visible := computeVisibleWorldBounds t
  let spanX := max (visible.maxX - visible.minX) (1 / 1000000)
  let spanY := max (visible.maxY - visible.minY) (1 / 1000000)
  (normalizeGridStep baseGridSize spanX 500, normalizeGridStep baseGridSize spanY 500)

/-! ## Arc angles and tessellation -/

/-- `Math.trunc` generalized to any floor ring scalar. -/
def jsTruncF (q : α) : ℤ :=
  if 0 ≤ q then ⌊q⌋ else ⌈q⌉

/-- JavaScript's `%` remainder (sign of the dividend): used by
`normalizeDegrees`. -/
def jsRem (a b : α) : α :=
  a - b * (jsTruncF (a / b) : α)

def normalizeDegrees (value : α) : α :=
  let normalized := jsRem value 360
  if normalized < 0 then normalized + 360 else normalized

/-- The degree-level part of `computeCounterClockwiseSweep`: normalize both
angles, take `(end - start + 360) % 360`, and treat `0` as `360`. -/
def ccwSweepDeg (startDeg endDeg : α) : α :=
  let s := normalizeDegrees startDeg
  let e := normalizeDegrees endDeg
  let delta := jsRem (e - s + 360) 360
  if delta = 0 then 360 else delta

noncomputable def degToRad (value : ℝ) : ℝ :=
  value * Real.pi / 180

/-- `computeCounterClockwiseSweep`, in radians as in the source. -/
noncomputable def computeCounterClockwiseSweep (startDeg endDeg : ℝ) : ℝ :=
  degToRad (ccwSweepDeg startDeg endDeg)

/-- `Math.max(12, Math.ceil(sweepRad / (Math.PI / 18)))` from `drawArc`. -/
noncomputable def arcSegments (startDeg endDeg : ℝ) : ℕ :=
  max 12 ⌈computeCounterClockwiseSweep startDeg endDeg / (Real.pi / 18)⌉.toNat

/-- The angle of the `i`-th tessellation sample of `drawArc`:
`startRad + (sweepRad * i) / segments`. -/
noncomputable def tessAngle (startDeg endDeg : ℝ) (i : ℕ) : ℝ :=
  degToRad startDeg +
    computeCounterClockwiseSweep startDeg endDeg * i / (arcSegments startDeg endDeg : ℝ)

noncomputable def tessPoint (center : DxfPoint ℝ) (radius startDeg endDeg : ℝ)
    (i : ℕ) : DxfPoint ℝ :=
  { x := center.x + radius * Real.cos (tessAngle startDeg endDeg i)
    y := center.y + radius * Real.sin (tessAngle startDeg endDeg i) }

/-- The polyline path `drawArc` strokes: samples `i = 0 .. segments`. -/
noncomputable def tessPath (center : DxfPoint ℝ) (radius startDeg endDeg : ℝ) :
    List (DxfPoint ℝ) :=
  (List.range (arcSegments startDeg endDeg + 1)).map (tessPoint center radius startDeg endDeg)

/-! ## VertexIndex (`collectVertices`, `findNearestVertex`) -/

noncomputable def getArcPoint (center : DxfPoint ℝ) (radius angleDeg : ℝ) : DxfPoint ℝ :=
  { x := center.x + radius * Real.cos (degToRad angleDeg)
    y := center.y + radius * Real.sin (degToRad angleDeg) }

noncomputable def collectVertices : List (DxfEntity ℝ) → List (DxfPoint ℝ)
  | [] => []
  | .line s e :: rest => s :: e :: collectVertices rest
  | .polyline pts _ :: rest => pts ++ collectVertices rest
  | .arc c r s e :: rest => getArcPoint c r s :: getArcPoint c r e :: collectVertices rest
  | .circle _ _ :: rest => collectVertices rest

/-- Squared screen distance of a candidate vertex from the query point. -/
noncomputable def screenDist2 (t : RenderTransform ℝ) (v : DxfPoint ℝ) (sx sy : ℝ) : ℝ :=
  let projected := toScreen v t
  (projected.x - sx) * (projected.x - sx) + (projected.y - sy) * (projected.y - sy)

/-- One iteration of the `findNearestVertex` loop: a candidate replaces the
current best when its squared distance is less than or equal to the best. -/
noncomputable def nearestStep (t : RenderTransform ℝ) (sx sy : ℝ)
    (acc : ℝ × Option (DxfPoint ℝ)) (v : DxfPoint ℝ) : ℝ × Option (DxfPoint ℝ) :=
  if screenDist2 t v sx sy ≤ acc.1 then (screenDist2 t v sx sy, some v) else acc

/-- `findNearestVertex`.  The source derives the transform from the canvas,
document and options via `createTransform`; the claim quantifies over
transforms, so the transform is a parameter here.  The accumulator starts at
`Math.max(maxDistancePx, 0) ** 2` with no best point. -/
noncomputable def findNearestVertex (t : RenderTransform ℝ) (entities : List (DxfEntity ℝ))
    (sx sy maxDistancePx : ℝ) : Option (DxfPoint ℝ) :=
  ((collectVertices entities).foldl (nearestStep t sx sy)
    (max maxDistancePx 0 ^ 2, none)).2

/-! # Shared lemmas about the view transform -/

theorem createTransform_zoom_pos (bounds : DxfBounds α) (width height padding : α)
    (viewport : DxfViewport α) :
    0 < (createTransform bounds width height padding viewport).zoom := by
  show 0 < clamp viewport.zoom (1 / 50) 200
  unfold clamp
  exact lt_min (by norm_num) (lt_of_lt_of_le (by norm_num) (le_max_left _ _))

theorem createTransform_baseScale_pos (bounds : DxfBounds α) (width height padding : α)
    (viewport : DxfViewport α) :
    0 < (createTransform bounds width height padding viewport).baseScale := by
  show 0 < max (1 / 1000000) _
  exact lt_of_lt_of_le (by norm_num) (le_max_left _ _)

/-- The three stages invert exactly whenever the zoom and fit scale are
nonzero (which `createTransform` guarantees by construction). -/
theorem screenToWorld_toScreen (t : RenderTransform α) (hz : t.zoom ≠ 0)
    (hb : t.baseScale ≠ 0) (p : DxfPoint α) :
    screenToWorld (toScreen p t) t = p := by
  obtain ⟨px, py⟩ := p
  simp only [toScreen, applyViewport, worldToBase, screenToWorld, DxfPoint.mk.injEq]
  constructor
  · field_simp
  · field_simp

/-- **C1**: for every bounds, canvas size, padding and viewport, and every
document point `p`, applying `screenToWorld` to `toScreen p` returns `p`
within `1e-6` in each coordinate (over the exact model the difference is 0,
which is within the claimed tolerance). -/
theorem claim_inverse_transform_roundtrip (bounds : DxfBounds ℝ)
    (width height padding : ℝ) (viewport : DxfViewport ℝ) (p : DxfPoint ℝ) :
    |(screenToWorld (toScreen p (createTransform bounds width height padding viewport))
        (createTransform bounds width height padding viewport)).x - p.x| ≤ 1 / 1000000 ∧
    |(screenToWorld (toScreen p (createTransform bounds width height padding viewport))
        (createTransform bounds width height padding viewport)).y - p.y| ≤ 1 / 1000000 := by
  have hz := ne_of_gt (createTransform_zoom_pos bounds width height padding viewport)
  have hb := ne_of_gt (createTransform_baseScale_pos bounds width height padding viewport)
  rw [screenToWorld_toScreen _ hz hb]
  norm_num

/-! # Grid planner lemmas -/

/-- Full characterisation of the doubling loop when the cap is at least one
line and the starting step is positive: the returned step satisfies the cap,
and it is either the starting step itself or the last doubling whose
predecessor still violated the cap. -/
theorem gridStepLoop_spec (span maxLines : α) (hml : 1 ≤ maxLines) :
    ∀ step : α, 0 < step →
      ¬ maxLines < span / gridStepLoop span maxLines step ∧
      (gridStepLoop span maxLines step = step ∨
        maxLines < span / (gridStepLoop span maxLines step / 2)) := by
  have H : ∀ n : ℕ, ∀ step : α, 0 < step → ⌈span / step⌉.toNat ≤ n →
      ¬ maxLines < span / gridStepLoop span maxLines step ∧
      (gridStepLoop span maxLines step = step ∨
        maxLines < span / (gridStepLoop span maxLines step / 2)) := by
    intro n
    induction n with
    | zero =>
      intro step hstep hm
      rw [gridStepLoop]
      split
      · rename_i hcond
        exfalso
        obtain ⟨h1, h2, h3⟩ := hcond
        have hx : (1 : α) < span / step := lt_of_le_of_lt h2 h3
        have hcl : (1 : ℤ) < ⌈span / step⌉ := by
          exact_mod_cast lt_of_lt_of_le hx (Int.le_ceil (span / step))
        omega
      · rename_i hcond
        refine ⟨fun hlt => hcond ⟨hstep, hml, hlt⟩, Or.inl rfl⟩
    | succ n ih =>
      intro step hstep hm
      rw [gridStepLoop]
      split
      · rename_i hcond
        obtain ⟨h1, h2, h3⟩ := hcond
        have hmlt := gridMeasure_lt h1 h2 h3
        have hrec := ih (2 * step) (by positivity) (by omega)
        refine ⟨hrec.1, ?_⟩
        rcases hrec.2 with heq | hgt
        · right
          rw [heq]
          have h22 : 2 * step / 2 = step := by ring
          rw [h22]
          exact h3
        · right
          exact hgt
      · rename_i hcond
        refine ⟨fun hlt => hcond ⟨hstep, hml, hlt⟩, Or.inl rfl⟩
  intro step hstep
  exact H ⌈span / step⌉.toNat step hstep le_rfl

/-- Concrete evaluation of the planner at base step 1 and span 10000 with the
cap 500 that `drawGrid` passes: six doublings, result 32. -/
theorem normalizeGridStep_at_10000 : normalizeGridStep (1 : ℚ) 10000 500 = 32 := by
  have e1 : max (1 : ℚ) (1 / 1000000) = 1 := by norm_num
  rw [normalizeGridStep, e1]
  rw [gridStepLoop, dif_pos (by norm_num)]
  rw [gridStepLoop, dif_pos (by norm_num)]
  rw [gridStepLoop, dif_pos (by norm_num)]
  rw [gridStepLoop, dif_pos (by norm_num)]
  rw [gridStepLoop, dif_pos (by norm_num)]
  rw [gridStepLoop, dif_neg (by norm_num)]
  norm_num

/-- **C2** (counterexample): the claim predicts the smallest doubling whose
line count stays within 5000 — step 2 for base 1 and span 10000 — but the
planner as invoked by `drawGrid` (cap 500) picks 32, and the grid-step
selection of `drawGrid` on a transform whose visible span is 10000 indeed
yields 32, not 2. -/
theorem claim_grid_counterexample :
    normalizeGridStep (1 : ℚ) 10000 500 = 32 ∧
    (5000 : ℚ) < 10000 / 1 ∧ (10000 : ℚ) / 2 ≤ 5000 ∧
    normalizeGridStep (1 : ℚ) 10000 500 ≠ 2 ∧
    (drawGridSteps (⟨1, 0, 0, 0, 0, 10000, 10000, 0, 0, 1, 0, 0⟩ : RenderTransform ℚ) 1).1 = 32 := by
  refine ⟨normalizeGridStep_at_10000, by norm_num, by norm_num, ?_, ?_⟩
  · rw [normalizeGridStep_at_10000]
    norm_num
  · have hv : (max (10000 - 0 : ℚ) (1 / 1000000)) = 10000 := by norm_num
    simp only [drawGridSteps, computeVisibleWorldBounds, screenToWorld]
    norm_num
    convert normalizeGridStep_at_10000 using 2

/-- **C2** (amended): for each axis the planner starts from the configured
base step (floored at `1e-6`) and doubles it, stopping as soon as the number
of lines `span / step` does not exceed **500** — the cap `drawGrid` actually
passes (5000 is only `drawGrid`'s separate hard bound on the drawing loop) —
so with a 1-unit base and a 10000-unit span the chosen step is 32. -/
theorem claim_grid_step_doubling :
    (∀ baseStep span : ℚ,
      ¬ (500 : ℚ) < span / normalizeGridStep baseStep span 500 ∧
      (normalizeGridStep baseStep span 500 = max baseStep (1 / 1000000) ∨
        (500 : ℚ) < span / (normalizeGridStep baseStep span 500 / 2))) ∧
    normalizeGridStep (1 : ℚ) 10000 500 = 32 := by
  constructor
  · intro baseStep span
    have hpos : (0 : ℚ) < max baseStep (1 / 1000000) :=
      lt_of_lt_of_le (by norm_num) (le_max_right _ _)
    exact gridStepLoop_spec span 500 (by norm_num) _ hpos
  · exact normalizeGridStep_at_10000

/-! # Angle normalization and the arc sweep -/

/-- Modelled from the spec's wording: "normalize both angles into `[0,360)`"
by the mathematical mod, `v - 360⌊v/360⌋`.  Used only to compare the spec's
formula with the code's computation. -/
def specNormalizeDeg (v : α) : α :=
  v - 360 * ⌊v / 360⌋

/-- Modelled from the spec's wording: sweep `= (end−start+360) mod 360` after
normalization, `and treat a zero result as a full 360° sweep`. -/
def sweepSpecDeg (startDeg endDeg : α) : α :=
  let s := specNormalizeDeg startDeg
  let e := specNormalizeDeg endDeg
  let d := (e - s + 360) - 360 * ⌊(e - s + 360) / 360⌋
  if d = 0 then 360 else d

theorem normalizeDegrees_nonneg (v : α) : 0 ≤ normalizeDegrees v := by
  unfold normalizeDegrees jsRem jsTruncF
  have h360 : v / 360 * 360 = v := div_mul_cancel₀ v (by norm_num)
  by_cases h : 0 ≤ v / 360
  · rw [if_pos h]
    have hfl : (⌊v / 360⌋ : α) ≤ v / 360 := Int.floor_le _
    have hn : 0 ≤ v - 360 * (⌊v / 360⌋ : α) := by nlinarith
    rw [if_neg (not_lt.mpr hn)]
    exact hn
  · rw [if_neg h]
    have hcl : v / 360 ≤ (⌈v / 360⌉ : α) := Int.le_ceil _
    have hcu : (⌈v / 360⌉ : α) < v / 360 + 1 := Int.ceil_lt_add_one _
    have hn : v - 360 * (⌈v / 360⌉ : α) ≤ 0 := by nlinarith
    by_cases hlt : v - 360 * (⌈v / 360⌉ : α) < 0
    · rw [if_pos hlt]
      nlinarith
    · rw [if_neg hlt]
      linarith [not_lt.mp hlt]

theorem normalizeDegrees_lt (v : α) : normalizeDegrees v < 360 := by
  unfold normalizeDegrees jsRem jsTruncF
  have h360 : v / 360 * 360 = v := div_mul_cancel₀ v (by norm_num)
  by_cases h : 0 ≤ v / 360
  · rw [if_pos h]
    have hfl : (⌊v / 360⌋ : α) ≤ v / 360 := Int.floor_le _
    have hfu : v / 360 < (⌊v / 360⌋ : α) + 1 := Int.lt_floor_add_one _
    have hn : 0 ≤ v - 360 * (⌊v / 360⌋ : α) := by nlinarith
    rw [if_neg (not_lt.mpr hn)]
    nlinarith
  · rw [if_neg h]
    have hcl : v / 360 ≤ (⌈v / 360⌉ : α) := Int.le_ceil _
    have hn : v - 360 * (⌈v / 360⌉ : α) ≤ 0 := by nlinarith
    by_cases hlt : v - 360 * (⌈v / 360⌉ : α) < 0
    · rw [if_pos hlt]
      linarith
    · rw [if_neg hlt]
      linarith

theorem normalizeDegrees_sub_int (v : α) : ∃ k : ℤ, v - normalizeDegrees v = 360 * k := by
  unfold normalizeDegrees jsRem jsTruncF
  by_cases h : 0 ≤ v / 360
  · rw [if_pos h]
    by_cases hlt : v - 360 * ((⌊v / 360⌋ : ℤ) : α) < 0
    · rw [if_pos hlt]
      exact ⟨⌊v / 360⌋ - 1, by push_cast; ring⟩
    · rw [if_neg hlt]
      exact ⟨⌊v / 360⌋, by ring⟩
  · rw [if_neg h]
    by_cases hlt : v - 360 * ((⌈v / 360⌉ : ℤ) : α) < 0
    · rw [if_pos hlt]
      exact ⟨⌈v / 360⌉ - 1, by push_cast; ring⟩
    · rw [if_neg hlt]
      exact ⟨⌈v / 360⌉, by ring⟩

/-- The code's `normalizeDegrees` coincides with the spec's mathematical
`mod` into `[0, 360)`. -/
theorem normalizeDegrees_eq_spec (v : α) : normalizeDegrees v = specNormalizeDeg v := by
  obtain ⟨k, hk⟩ := normalizeDegrees_sub_int v
  have h0 := normalizeDegrees_nonneg v
  have h1 := normalizeDegrees_lt v
  have hfloor : ⌊v / 360⌋ = k := by
    rw [Int.floor_eq_iff]
    constructor
    · have hv : v = normalizeDegrees v + 360 * (k : α) := by linarith
      rw [hv]
      have hd : 0 ≤ normalizeDegrees v / 360 := div_nonneg h0 (by norm_num)
      have he : (normalizeDegrees v + 360 * (k : α)) / 360 = k + normalizeDegrees v / 360 := by
        ring
      rw [he]
      linarith
    · have hv : v = normalizeDegrees v + 360 * (k : α) := by linarith
      rw [hv]
      have : (normalizeDegrees v + 360 * (k : α)) / 360 = k + normalizeDegrees v / 360 := by
        ring
      rw [this]
      have : normalizeDegrees v / 360 < 1 := by
        rw [div_lt_one (by norm_num)]
        exact h1
      linarith
  unfold specNormalizeDeg
  rw [hfloor]
  linarith

/-- `x % 360` for a nonnegative dividend is the mathematical mod. -/
theorem jsRem_nonneg_eq (x : α) (hx : 0 ≤ x) :
    jsRem x 360 = x - 360 * ⌊x / 360⌋ := by
  unfold jsRem jsTruncF
  rw [if_pos (by positivity)]

theorem jsRem_nonneg_bounds (x : α) (hx : 0 ≤ x) :
    0 ≤ jsRem x 360 ∧ jsRem x 360 < 360 := by
  rw [jsRem_nonneg_eq x hx]
  have hfl : (⌊x / 360⌋ : α) ≤ x / 360 := Int.floor_le _
  have hfu : x / 360 < (⌊x / 360⌋ : α) + 1 := Int.lt_floor_add_one _
  have h360 : x / 360 * 360 = x := div_mul_cancel₀ x (by norm_num)
  constructor <;> nlinarith

/-- **C3**: the tessellation sweep is exactly the claimed formula — both
angles normalized into `[0,360)`, counter-clockwise delta
`(end − start + 360) mod 360`, a zero delta treated as a full 360° sweep —
and in particular an arc from 350° to 10° sweeps 20°, not 340°. -/
theorem claim_arc_sweep_formula :
    (∀ s e : ℝ, ccwSweepDeg s e = sweepSpecDeg s e) ∧
    (∀ s e : ℝ, computeCounterClockwiseSweep s e = degToRad (sweepSpecDeg s e)) ∧
    ccwSweepDeg (350 : ℝ) 10 = 20 ∧
    computeCounterClockwiseSweep (350 : ℝ) 10 = degToRad 20 := by
  have hmain : ∀ s e : ℝ, ccwSweepDeg s e = sweepSpecDeg s e := by
    intro s e
    simp only [ccwSweepDeg, sweepSpecDeg]
    rw [← normalizeDegrees_eq_spec, ← normalizeDegrees_eq_spec]
    have h1 := normalizeDegrees_nonneg s
    have h2 := normalizeDegrees_lt s
    have h3 := normalizeDegrees_nonneg e
    have harg : (0 : ℝ) ≤ normalizeDegrees e - normalizeDegrees s + 360 := by linarith
    rw [jsRem_nonneg_eq _ harg]
  have h350 : ccwSweepDeg (350 : ℝ) 10 = 20 := by
    have hn350 : normalizeDegrees (350 : ℝ) = 350 := by
      rw [normalizeDegrees_eq_spec]
      unfold specNormalizeDeg
      have : ⌊(350 : ℝ) / 360⌋ = 0 := by
        rw [Int.floor_eq_zero_iff]
        constructor <;> norm_num
      rw [this]
      norm_num
    have hn10 : normalizeDegrees (10 : ℝ) = 10 := by
      rw [normalizeDegrees_eq_spec]
      unfold specNormalizeDeg
      have : ⌊(10 : ℝ) / 360⌋ = 0 := by
        rw [Int.floor_eq_zero_iff]
        constructor <;> norm_num
      rw [this]
      norm_num
    simp only [ccwSweepDeg]
    rw [hn350, hn10]
    have h20 : (10 : ℝ) - 350 + 360 = 20 := by norm_num
    rw [h20, jsRem_nonneg_eq 20 (by norm_num)]
    have : ⌊(20 : ℝ) / 360⌋ = 0 := by
      rw [Int.floor_eq_zero_iff]
      constructor <;> norm_num
    rw [this]
    norm_num
  refine ⟨hmain, fun s e => ?_, h350, ?_⟩
  · simp only [computeCounterClockwiseSweep]
    rw [hmain]
  · simp only [computeCounterClockwiseSweep]
    rw [h350]

/-- The degree-level sweep is always in `(0, 360]`. -/
theorem ccwSweepDeg_pos_le (s e : α) :
    0 < ccwSweepDeg s e ∧ ccwSweepDeg s e ≤ 360 := by
  simp only [ccwSweepDeg]
  have h1 := normalizeDegrees_nonneg s
  have h2 := normalizeDegrees_lt s
  have h3 := normalizeDegrees_nonneg e
  have harg : (0 : α) ≤ normalizeDegrees e - normalizeDegrees s + 360 := by linarith
  obtain ⟨hb0, hb1⟩ := jsRem_nonneg_bounds _ harg
  by_cases hz : jsRem (normalizeDegrees e - normalizeDegrees s + 360) 360 = 0
  · rw [if_pos hz]
    norm_num
  · rw [if_neg hz]
    exact ⟨lt_of_le_of_ne hb0 (Ne.symm hz), le_of_lt hb1⟩

/-! # Arc tessellation lemmas -/

theorem computeCounterClockwiseSweep_pos (s e : ℝ) :
    0 < computeCounterClockwiseSweep s e := by
  unfold computeCounterClockwiseSweep degToRad
  have h := (ccwSweepDeg_pos_le s e).1
  have hpi := Real.pi_pos
  positivity

theorem arcSegments_cast (s e : ℝ) :
    (arcSegments s e : ℤ) = max 12 ⌈computeCounterClockwiseSweep s e / (Real.pi / 18)⌉ := by
  unfold arcSegments
  have hpos : 0 < computeCounterClockwiseSweep s e / (Real.pi / 18) := by
    have h1 := computeCounterClockwiseSweep_pos s e
    have hpi := Real.pi_pos
    positivity
  have hc : 0 < ⌈computeCounterClockwiseSweep s e / (Real.pi / 18)⌉ := Int.ceil_pos.mpr hpos
  push_cast [Int.toNat_of_nonneg (le_of_lt hc)]
  rfl

theorem arcSegments_ne_zero (s e : ℝ) : (arcSegments s e : ℝ) ≠ 0 := by
  have h12 : 12 ≤ arcSegments s e := Nat.le_max_left _ _
  have : arcSegments s e ≠ 0 := by omega
  exact_mod_cast this

theorem tessPath_head (c : DxfPoint ℝ) (r s e : ℝ) :
    (tessPath c r s e).head? = some (tessPoint c r s e 0) := by
  unfold tessPath
  rw [List.range_succ_eq_map]
  simp

theorem tessPath_last (c : DxfPoint ℝ) (r s e : ℝ) :
    (tessPath c r s e).getLast? = some (tessPoint c r s e (arcSegments s e)) := by
  unfold tessPath
  rw [List.range_succ, List.map_append]
  simp

theorem tessAngle_zero (s e : ℝ) : tessAngle s e 0 = degToRad s := by
  simp [tessAngle]

theorem tessAngle_top (s e : ℝ) :
    tessAngle s e (arcSegments s e) = degToRad s + computeCounterClockwiseSweep s e := by
  unfold tessAngle
  rw [mul_div_assoc, div_self (arcSegments_ne_zero s e), mul_one]

theorem ccwSweepDeg_0_90 : ccwSweepDeg (0 : ℝ) 90 = 90 := by
  have hn0 : normalizeDegrees (0 : ℝ) = 0 := by
    rw [normalizeDegrees_eq_spec]
    unfold specNormalizeDeg
    norm_num
  have hn90 : normalizeDegrees (90 : ℝ) = 90 := by
    rw [normalizeDegrees_eq_spec]
    unfold specNormalizeDeg
    have : ⌊(90 : ℝ) / 360⌋ = 0 := by
      rw [Int.floor_eq_zero_iff]
      constructor <;> norm_num
    rw [this]
    norm_num
  simp only [ccwSweepDeg]
  rw [hn0, hn90]
  have h450 : (90 : ℝ) - 0 + 360 = 450 := by norm_num
  rw [h450, jsRem_nonneg_eq 450 (by norm_num)]
  have : ⌊(450 : ℝ) / 360⌋ = 1 := by
    rw [Int.floor_eq_iff]
    constructor <;> norm_num
  rw [this]
  norm_num

theorem sweep_0_90 : computeCounterClockwiseSweep (0 : ℝ) 90 = Real.pi / 2 := by
  unfold computeCounterClockwiseSweep
  rw [ccwSweepDeg_0_90]
  unfold degToRad
  ring

/-- **C4**: the tessellation uses `max(12, ceil(sweepRad / (π/18)))`
segments; the stroked path's first sample sits at the start angle and its
last at start + sweep; and the 0°→90° arc starts at `center+(radius,0)` and
ends at `center+(0,radius)` with at least 12 segments. -/
theorem claim_arc_tessellation :
    (∀ s e : ℝ,
      (arcSegments s e : ℤ) = max 12 ⌈computeCounterClockwiseSweep s e / (Real.pi / 18)⌉) ∧
    (∀ (c : DxfPoint ℝ) (r s e : ℝ),
      (tessPath c r s e).head? =
        some ⟨c.x + r * Real.cos (degToRad s), c.y + r * Real.sin (degToRad s)⟩ ∧
      (tessPath c r s e).getLast? =
        some ⟨c.x + r * Real.cos (degToRad s + computeCounterClockwiseSweep s e),
              c.y + r * Real.sin (degToRad s + computeCounterClockwiseSweep s e)⟩) ∧
    (∀ (c : DxfPoint ℝ) (r : ℝ),
      (tessPath c r 0 90).head? = some ⟨c.x + r, c.y⟩ ∧
      (tessPath c r 0 90).getLast? = some ⟨c.x, c.y + r⟩ ∧
      12 ≤ arcSegments 0 90) := by
  have hhead : ∀ (c : DxfPoint ℝ) (r s e : ℝ),
      (tessPath c r s e).head? =
        some ⟨c.x + r * Real.cos (degToRad s), c.y + r * Real.sin (degToRad s)⟩ := by
    intro c r s e
    rw [tessPath_head]
    unfold tessPoint
    rw [tessAngle_zero]
  have hlast : ∀ (c : DxfPoint ℝ) (r s e : ℝ),
      (tessPath c r s e).getLast? =
        some ⟨c.x + r * Real.cos (degToRad s + computeCounterClockwiseSweep s e),
              c.y + r * Real.sin (degToRad s + computeCounterClockwiseSweep s e)⟩ := by
    intro c r s e
    rw [tessPath_last]
    unfold tessPoint
    rw [tessAngle_top]
  refine ⟨arcSegments_cast, fun c r s e => ⟨hhead c r s e, hlast c r s e⟩,
    fun c r => ⟨?_, ?_, Nat.le_max_left _ _⟩⟩
  · rw [hhead]
    have h0 : degToRad (0 : ℝ) = 0 := by
      unfold degToRad
      ring
    rw [h0]
    simp
  · rw [hlast]
    have h0 : degToRad (0 : ℝ) = 0 := by
      unfold degToRad
      ring
    rw [h0, sweep_0_90]
    simp

/-! # Nearest-vertex query lemmas -/

theorem foldl_nearestStep_none (t : RenderTransform ℝ) (sx sy : ℝ) :
    ∀ (l : List (DxfPoint ℝ)) (acc : ℝ × Option (DxfPoint ℝ)),
      (∀ v ∈ l, ¬ screenDist2 t v sx sy ≤ acc.1) →
      l.foldl (nearestStep t sx sy) acc = acc := by
  intro l
  induction l with
  | nil =>
    intro acc _
    rfl
  | cons v rest ih =>
    intro acc h
    rw [List.foldl_cons]
    have hv : ¬ screenDist2 t v sx sy ≤ acc.1 := h v (by simp)
    have hstep : nearestStep t sx sy acc v = acc := by
      unfold nearestStep
      rw [if_neg hv]
    rw [hstep]
    exact ih acc (fun w hw => h w (by simp [hw]))

theorem foldl_nearestStep_fst (t : RenderTransform ℝ) (sx sy : ℝ) :
    ∀ (l : List (DxfPoint ℝ)) (b : ℝ) (o : Option (DxfPoint ℝ)),
      (l.foldl (nearestStep t sx sy) (b, o)).1 =
        l.foldl (fun m v => min m (screenDist2 t v sx sy)) b := by
  intro l
  induction l with
  | nil =>
    intro b o
    rfl
  | cons v rest ih =>
    intro b o
    rw [List.foldl_cons, List.foldl_cons]
    by_cases h : screenDist2 t v sx sy ≤ b
    · have hstep : nearestStep t sx sy (b, o) v = (screenDist2 t v sx sy, some v) := by
        unfold nearestStep
        rw [if_pos h]
      rw [hstep, ih]
      have : min b (screenDist2 t v sx sy) = screenDist2 t v sx sy := min_eq_right h
      rw [this]
    · have hstep : nearestStep t sx sy (b, o) v = (b, o) := by
        unfold nearestStep
        rw [if_neg h]
      rw [hstep, ih]
      have : min b (screenDist2 t v sx sy) = b := min_eq_left (le_of_not_le h)
      rw [this]

theorem le_foldl_min (t : RenderTransform ℝ) (sx sy : ℝ) (c : ℝ) :
    ∀ (l : List (DxfPoint ℝ)) (b : ℝ), c ≤ b →
      (∀ v ∈ l, c ≤ screenDist2 t v sx sy) →
      c ≤ l.foldl (fun m v => min m (screenDist2 t v sx sy)) b := by
  intro l
  induction l with
  | nil =>
    intro b hb _
    exact hb
  | cons v rest ih =>
    intro b hb h
    rw [List.foldl_cons]
    exact ih _ (le_min hb (h v (by simp))) (fun w hw => h w (by simp [hw]))

/-- **C5**: the nearest-vertex query returns none when no candidate's screen
distance is within the maximum radius; and whenever a candidate `p` is the
*last* minimum-distance candidate in enumeration order (no earlier candidate
is strictly closer, no later candidate is at least as close), the query
returns exactly `p` — the `≤` comparison makes exact ties resolve to the
later-enumerated candidate. -/
theorem claim_nearest_vertex (t : RenderTransform ℝ) (entities : List (DxfEntity ℝ))
    (sx sy maxDistancePx : ℝ) :
    ((∀ v ∈ collectVertices entities,
        ¬ screenDist2 t v sx sy ≤ max maxDistancePx 0 ^ 2) →
      findNearestVertex t entities sx sy maxDistancePx = none) ∧
    (∀ (pre post : List (DxfPoint ℝ)) (p : DxfPoint ℝ),
      collectVertices entities = pre ++ p :: post →
      screenDist2 t p sx sy ≤ max maxDistancePx 0 ^ 2 →
      (∀ v ∈ pre, screenDist2 t p sx sy ≤ screenDist2 t v sx sy) →
      (∀ v ∈ post, screenDist2 t p sx sy < screenDist2 t v sx sy) →
      findNearestVertex t entities sx sy maxDistancePx = some p) := by
  constructor
  · intro hall
    unfold findNearestVertex
    rw [foldl_nearestStep_none t sx sy _ _ (by simpa using hall)]
  · intro pre post p hsplit hle hpre hpost
    unfold findNearestVertex
    rw [hsplit, List.foldl_append, List.foldl_cons]
    have hA1 : screenDist2 t p sx sy ≤
        (pre.foldl (nearestStep t sx sy) (max maxDistancePx 0 ^ 2, none)).1 := by
      rw [foldl_nearestStep_fst]
      exact le_foldl_min t sx sy _ pre _ hle hpre
    have hstep : nearestStep t sx sy
        (pre.foldl (nearestStep t sx sy) (max maxDistancePx 0 ^ 2, none)) p =
        (screenDist2 t p sx sy, some p) := by
      rw [nearestStep]
      rw [if_pos hA1]
    rw [hstep]
    rw [foldl_nearestStep_none t sx sy post _
      (fun w hw => not_le.mpr (hpost w hw))]

/-! # Parser claims -/

/-- **C6**: raw input containing a NUL byte always yields at least one
warning, and entity extraction still runs over the scanned tag stream
exactly as for any other input. -/
theorem claim_nul_byte_warning (raw : String) (h : raw.data.contains '\x00' = true) :
    1 ≤ (parseDxf raw).warnings.length ∧
    (parseDxf raw).entities = parseDxfLoop (parseGroups raw) 0 false := by
  refine ⟨?_, rfl⟩
  show 1 ≤ (if raw.data.contains '\x00' then [binaryDxfWarning] else []).length
  rw [if_pos h]
  simp

/-- Witness: a 1-byte NUL input gets the binary warning (and its entity
walk still runs, extracting nothing). -/
theorem claim_nul_byte_warning_witness :
    1 ≤ (parseDxf "\x00").warnings.length ∧
    (parseDxf "\x00").entities = parseDxfLoop (parseGroups "\x00") 0 false :=
  claim_nul_byte_warning "\x00" (by decide)

/-- The per-variant field constraints of the data model: positive radii for
circles and arcs, at least two points for polylines. -/
def entityOk : DxfEntity ℚ → Prop
  | .line _ _ => True
  | .circle _ r => 0 < r
  | .arc _ r _ _ => 0 < r
  | .polyline pts _ => 2 ≤ pts.length

theorem parseLine_ok (body : List DxfGroup) (e : DxfEntity ℚ)
    (h : parseLine body = some e) : entityOk e := by
  unfold parseLine at h
  split at h
  · cases h
    trivial
  · cases h

theorem parseCircle_ok (body : List DxfGroup) (e : DxfEntity ℚ)
    (h : parseCircle body = some e) : entityOk e := by
  unfold parseCircle at h
  split at h
  · rename_i center radius
    split at h
    · cases h
    · rename_i hr
      cases h
      exact not_le.mp hr
  · cases h

theorem parseArc_ok (body : List DxfGroup) (e : DxfEntity ℚ)
    (h : parseArc body = some e) : entityOk e := by
  unfold parseArc at h
  split at h
  · rename_i center radius startAngle endAngle
    split at h
    · cases h
    · rename_i hr
      cases h
      exact not_le.mp hr
  · cases h

theorem parseLwPolyline_ok (body : List DxfGroup) (e : DxfEntity ℚ)
    (h : parseLwPolyline body = some e) : entityOk e := by
  simp only [parseLwPolyline] at h
  split at h
  · cases h
  · rename_i hlen
    cases h
    exact not_lt.mp hlen

theorem parseSimpleEntity_ok (groups : List DxfGroup) (i : ℕ) (e : DxfEntity ℚ)
    (h : (parseSimpleEntity groups i).1 = some e) : entityOk e := by
  unfold parseSimpleEntity at h
  split at h
  · cases h
  · split at h
    · exact parseLine_ok _ _ h
    · exact parseLwPolyline_ok _ _ h
    · exact parseCircle_ok _ _ h
    · exact parseArc_ok _ _ h
    · cases h

theorem parsePolylineEntity_ok (groups : List DxfGroup) (i : ℕ) (e : DxfEntity ℚ)
    (h : (parsePolylineEntity groups i).1 = some e) : entityOk e := by
  simp only [parsePolylineEntity] at h
  split at h
  · cases h
  · rename_i hlen
    cases h
    exact not_lt.mp hlen

theorem parseDxfLoop_ok (groups : List DxfGroup) :
    ∀ (n i : ℕ) (b : Bool), groups.length - i ≤ n →
      ∀ e ∈ parseDxfLoop groups i b, entityOk e := by
  intro n
  induction n with
  | zero =>
    intro i b hle e he
    have hnone : groups.get? i = none := by
      rw [List.get?_eq_none]
      omega
    rw [parseDxfLoop] at he
    split at he
    · cases he
    · rename_i g heq
      rw [hnone] at heq
      cases heq
  | succ n ih =>
    intro i b hle e he
    rw [parseDxfLoop] at he
    split at he
    · cases he
    · rename_i g heq
      have hi : i < groups.length := (List.get?_eq_some.mp heq).1
      split at he
      · exact ih (i + 2) _ (by omega) e he
      · split at he
        · exact ih (i + 1) false (by omega) e he
        · split at he
          · exact ih (i + 1) b (by omega) e he
          · split at he
            · rcases List.mem_append.mp he with hl | hr
              · refine parsePolylineEntity_ok groups i e ?_
                cases hmem : (parsePolylineEntity groups i).1 with
                | none => rw [hmem] at hl; cases hl
                | some e' =>
                  rw [hmem] at hl
                  simp at hl
                  rw [hl]
              · have := lt_parsePolylineEntity_snd groups i
                exact ih (parsePolylineEntity groups i).2 b (by omega) e hr
            · rcases List.mem_append.mp he with hl | hr
              · refine parseSimpleEntity_ok groups i e ?_
                cases hmem : (parseSimpleEntity groups i).1 with
                | none => rw [hmem] at hl; cases hl
                | some e' =>
                  rw [hmem] at hl
                  simp at hl
                  rw [hl]
              · have := lt_parseSimpleEntity_snd groups i
                exact ih (parseSimpleEntity groups i).2 b (by omega) e hr

/-- **C7**: every entity of a parsed Document satisfies its variant's field
constraints — circles and arcs carry a strictly positive radius, polylines
carry at least two points; extraction never emits a partially-valid value. -/
theorem claim_entity_invariants (raw : String) (e : DxfEntity ℚ)
    (he : e ∈ (parseDxf raw).entities) : entityOk e :=
  parseDxfLoop_ok (parseGroups raw) (parseGroups raw).length 0 false (by omega) e he


/-! # Concrete example documents -/

def circleExampleRaw : String :=
  "0\nSECTION\n2\nENTITIES\n0\nCIRCLE\n10\n1\n20\n2\n40\n5"

def circleExampleGroups : List DxfGroup :=
  [⟨0, "SECTION"⟩, ⟨2, "ENTITIES"⟩, ⟨0, "CIRCLE"⟩, ⟨10, "1"⟩, ⟨20, "2"⟩, ⟨40, "5"⟩]

theorem circleExampleGroups_eq : parseGroups circleExampleRaw = circleExampleGroups := by
  decide

theorem circleExample_loop :
    parseDxfLoop circleExampleGroups 0 false = [DxfEntity.circle ⟨1, 2⟩ 5] := by
  have hsb : scanBodyEnd circleExampleGroups 3 = 6 := by
    rw [scanBodyEnd, scanBodyEnd, scanBodyEnd, scanBodyEnd]
    decide
  have hps : parseSimpleEntity circleExampleGroups 2 = (some (DxfEntity.circle ⟨1, 2⟩ 5), 6) := by
    simp only [parseSimpleEntity, hsb]
    decide
  rw [parseDxfLoop]
  show parseDxfLoop circleExampleGroups 2 true = [DxfEntity.circle ⟨1, 2⟩ 5]
  rw [parseDxfLoop]
  show (parseSimpleEntity circleExampleGroups 2).1.toList ++
      parseDxfLoop circleExampleGroups (parseSimpleEntity circleExampleGroups 2).2 true =
    [DxfEntity.circle ⟨1, 2⟩ 5]
  rw [hps]
  show [DxfEntity.circle ⟨1, 2⟩ 5] ++ parseDxfLoop circleExampleGroups 6 true =
    [DxfEntity.circle ⟨1, 2⟩ 5]
  rw [parseDxfLoop]
  decide

/-- Witness for C7: the circle extracted from a concrete document has a
positive radius. -/
theorem claim_entity_invariants_witness : entityOk (DxfEntity.circle ⟨1, 2⟩ 5) := by
  apply claim_entity_invariants circleExampleRaw
  show DxfEntity.circle ⟨1, 2⟩ 5 ∈ parseDxfLoop (parseGroups circleExampleRaw) 0 false
  rw [circleExampleGroups_eq, circleExample_loop]
  simp


def badCircleRaw : String :=
  "0\nSECTION\n2\nENTITIES\n0\nLINE\n10\n0\n20\n0\n11\n1\n21\n1\n0\nCIRCLE\n10\n0\n20\n0\n40\n-5\n0\nLINE\n10\n2\n20\n2\n11\n3\n21\n3\n0\nENDSEC"

def badCircleGroups : List DxfGroup :=
  [⟨0, "SECTION"⟩, ⟨2, "ENTITIES"⟩,
   ⟨0, "LINE"⟩, ⟨10, "0"⟩, ⟨20, "0"⟩, ⟨11, "1"⟩, ⟨21, "1"⟩,
   ⟨0, "CIRCLE"⟩, ⟨10, "0"⟩, ⟨20, "0"⟩, ⟨40, "-5"⟩,
   ⟨0, "LINE"⟩, ⟨10, "2"⟩, ⟨20, "2"⟩, ⟨11, "3"⟩, ⟨21, "3"⟩,
   ⟨0, "ENDSEC"⟩]

theorem badCircleGroups_eq : parseGroups badCircleRaw = badCircleGroups := by
  decide

theorem badCircle_loop :
    parseDxfLoop badCircleGroups 0 false =
      [DxfEntity.line ⟨0, 0⟩ ⟨1, 1⟩, DxfEntity.line ⟨2, 2⟩ ⟨3, 3⟩] := by
  have hsb1 : scanBodyEnd badCircleGroups 3 = 7 := by
    rw [scanBodyEnd, scanBodyEnd, scanBodyEnd, scanBodyEnd, scanBodyEnd]
    decide
  have hp1 : parseSimpleEntity badCircleGroups 2 =
      (some (DxfEntity.line ⟨0, 0⟩ ⟨1, 1⟩), 7) := by
    simp only [parseSimpleEntity, hsb1]
    decide
  have hsb2 : scanBodyEnd badCircleGroups 8 = 11 := by
    rw [scanBodyEnd, scanBodyEnd, scanBodyEnd, scanBodyEnd]
    decide
  have hp2 : parseSimpleEntity badCircleGroups 7 = (none, 11) := by
    simp only [parseSimpleEntity, hsb2]
    decide
  have hsb3 : scanBodyEnd badCircleGroups 12 = 16 := by
    rw [scanBodyEnd, scanBodyEnd, scanBodyEnd, scanBodyEnd, scanBodyEnd]
    decide
  have hp3 : parseSimpleEntity badCircleGroups 11 =
      (some (DxfEntity.line ⟨2, 2⟩ ⟨3, 3⟩), 16) := by
    simp only [parseSimpleEntity, hsb3]
    decide
  rw [parseDxfLoop]
  show parseDxfLoop badCircleGroups 2 true =
    [DxfEntity.line ⟨0, 0⟩ ⟨1, 1⟩, DxfEntity.line ⟨2, 2⟩ ⟨3, 3⟩]
  rw [parseDxfLoop]
  show (parseSimpleEntity badCircleGroups 2).1.toList ++
      parseDxfLoop badCircleGroups (parseSimpleEntity badCircleGroups 2).2 true =
    [DxfEntity.line ⟨0, 0⟩ ⟨1, 1⟩, DxfEntity.line ⟨2, 2⟩ ⟨3, 3⟩]
  rw [hp1]
  show [DxfEntity.line ⟨0, 0⟩ ⟨1, 1⟩] ++ parseDxfLoop badCircleGroups 7 true =
    [DxfEntity.line ⟨0, 0⟩ ⟨1, 1⟩, DxfEntity.line ⟨2, 2⟩ ⟨3, 3⟩]
  rw [parseDxfLoop]
  show [DxfEntity.line ⟨0, 0⟩ ⟨1, 1⟩] ++
      ((parseSimpleEntity badCircleGroups 7).1.toList ++
        parseDxfLoop badCircleGroups (parseSimpleEntity badCircleGroups 7).2 true) =
    [DxfEntity.line ⟨0, 0⟩ ⟨1, 1⟩, DxfEntity.line ⟨2, 2⟩ ⟨3, 3⟩]
  rw [hp2]
  show [DxfEntity.line ⟨0, 0⟩ ⟨1, 1⟩] ++ ([] ++ parseDxfLoop badCircleGroups 11 true) =
    [DxfEntity.line ⟨0, 0⟩ ⟨1, 1⟩, DxfEntity.line ⟨2, 2⟩ ⟨3, 3⟩]
  rw [parseDxfLoop]
  show [DxfEntity.line ⟨0, 0⟩ ⟨1, 1⟩] ++
      ([] ++ ((parseSimpleEntity badCircleGroups 11).1.toList ++
        parseDxfLoop badCircleGroups (parseSimpleEntity badCircleGroups 11).2 true)) =
    [DxfEntity.line ⟨0, 0⟩ ⟨1, 1⟩, DxfEntity.line ⟨2, 2⟩ ⟨3, 3⟩]
  rw [hp3]
  show [DxfEntity.line ⟨0, 0⟩ ⟨1, 1⟩] ++
      ([] ++ ([DxfEntity.line ⟨2, 2⟩ ⟨3, 3⟩] ++ parseDxfLoop badCircleGroups 16 true)) =
    [DxfEntity.line ⟨0, 0⟩ ⟨1, 1⟩, DxfEntity.line ⟨2, 2⟩ ⟨3, 3⟩]
  rw [parseDxfLoop]
  show [DxfEntity.line ⟨0, 0⟩ ⟨1, 1⟩] ++
      ([] ++ ([DxfEntity.line ⟨2, 2⟩ ⟨3, 3⟩] ++ parseDxfLoop badCircleGroups 17 false)) =
    [DxfEntity.line ⟨0, 0⟩ ⟨1, 1⟩, DxfEntity.line ⟨2, 2⟩ ⟨3, 3⟩]
  rw [parseDxfLoop]
  decide

/-- **C9**: a soft validation failure — here a CIRCLE whose radius field is
not positive — drops only the offending entity, appends no warning and stops
nothing: `parseCircle` rejects any body whose radius field parses to a value
`≤ 0`, and in a concrete document a bad CIRCLE between two LINEs vanishes
while both LINEs are extracted and the warning list stays empty. -/
theorem claim_soft_failure_drops_entity :
    (∀ (body : List DxfGroup) (r : ℚ), readNumber body 40 = some r → r ≤ 0 →
      parseCircle body = none) ∧
    (parseDxf badCircleRaw).entities =
      [DxfEntity.line ⟨0, 0⟩ ⟨1, 1⟩, DxfEntity.line ⟨2, 2⟩ ⟨3, 3⟩] ∧
    (parseDxf badCircleRaw).warnings = [] := by
  refine ⟨?_, ?_, by decide⟩
  · intro body r hr hle
    unfold parseCircle
    split
    · rename_i center radius heq1 heq2
      rw [hr] at heq2
      injection heq2 with heq'
      rw [if_pos (heq' ▸ hle)]
    · rfl
  · show parseDxfLoop (parseGroups badCircleRaw) 0 false = _
    rw [badCircleGroups_eq, badCircle_loop]

/-- Witness for C9: a body whose code-40 field reads `-5` yields no circle. -/
theorem claim_soft_failure_witness :
    parseCircle [⟨40, "-5"⟩] = none :=
  claim_soft_failure_drops_entity.1 [⟨40, "-5"⟩] (-5) (by decide) (by decide)


/-! # Section-walk step equations -/

theorem parseDxfLoop_nil (groups : List DxfGroup) (i : ℕ) (b : Bool)
    (hg : groups.get? i = none) : parseDxfLoop groups i b = [] := by
  conv_lhs => rw [parseDxfLoop]
  split
  · rfl
  · rename_i g heq
    rw [hg] at heq
    cases heq

theorem parseDxfLoop_section_step (groups : List DxfGroup) (i : ℕ) (b : Bool)
    (g m : DxfGroup) (hg : groups.get? i = some g) (hc : g.code = 0)
    (hv : g.value = "SECTION") (hm : groups.get? (i + 1) = some m) :
    parseDxfLoop groups i b =
      parseDxfLoop groups (i + 2) (m.code == 2 && m.value == "ENTITIES") := by
  conv_lhs => rw [parseDxfLoop]
  split
  · rename_i heq
    rw [hg] at heq
    cases heq
  · rename_i g' heq
    rw [hg] at heq
    injection heq with heq'
    subst heq'
    rw [if_pos ⟨hc, hv⟩, hm]

theorem parseDxfLoop_endsec_step (groups : List DxfGroup) (i : ℕ) (b : Bool)
    (g : DxfGroup) (hg : groups.get? i = some g) (hc : g.code = 0)
    (hv : g.value = "ENDSEC") :
    parseDxfLoop groups i b = parseDxfLoop groups (i + 1) false := by
  have hns : ¬(g.code = 0 ∧ g.value = "SECTION") := by
    rintro ⟨-, hs⟩
    rw [hv] at hs
    simp at hs
  conv_lhs => rw [parseDxfLoop]
  split
  · rename_i heq
    rw [hg] at heq
    cases heq
  · rename_i g' heq
    rw [hg] at heq
    injection heq with heq'
    subst heq'
    rw [if_neg hns, if_pos ⟨hc, hv⟩]

theorem parseDxfLoop_skip_step (groups : List DxfGroup) (i : ℕ) (b : Bool)
    (g : DxfGroup) (hg : groups.get? i = some g)
    (hns : ¬(g.code = 0 ∧ g.value = "SECTION"))
    (hne : ¬(g.code = 0 ∧ g.value = "ENDSEC"))
    (hsk : b = false ∨ g.code ≠ 0) :
    parseDxfLoop groups i b = parseDxfLoop groups (i + 1) b := by
  conv_lhs => rw [parseDxfLoop]
  split
  · rename_i heq
    rw [hg] at heq
    cases heq
  · rename_i g' heq
    rw [hg] at heq
    injection heq with heq'
    subst heq'
    rw [if_neg hns, if_neg hne, if_pos hsk]

/-- With the section flag off and no `SECTION` marker anywhere in the tag
list, the walk extracts nothing: entities come only from code-0 records
seen while the flag is set. -/
theorem parseDxfLoop_false_no_entities (groups : List DxfGroup)
    (hns : ∀ g ∈ groups, ¬(g.code = 0 ∧ g.value = "SECTION")) :
    ∀ i : ℕ, parseDxfLoop groups i false = [] := by
  have H : ∀ n i, groups.length - i ≤ n → parseDxfLoop groups i false = [] := by
    intro n
    induction n with
    | zero =>
      intro i hle
      refine parseDxfLoop_nil groups i false ?_
      rw [List.get?_eq_none]
      omega
    | succ n ih =>
      intro i hle
      rw [parseDxfLoop]
      split
      · rfl
      · rename_i g heq
        have hi : i < groups.length := (List.get?_eq_some.mp heq).1
        have hmem : g ∈ groups := List.get?_mem heq
        split
        · rename_i hcond
          exact absurd hcond (hns g hmem)
        · split
          · exact ih (i + 1) (by omega)
          · split
            · exact ih (i + 1) (by omega)
            · rename_i hcond
              simp at hcond
  intro i
  exact H (groups.length - i) i le_rfl

/-- **C8**: during the walk, a code-0 `SECTION` record followed by any
record sets the inside-entities flag to true iff that following record has
code 2 and value `ENTITIES`; a code-0 `ENDSEC` clears the flag; and at every
other record, whenever the flag is off or the record's code is not 0, the
walk extracts nothing there and moves one record onward with the flag
unchanged — so entities are extracted only at code-0 records encountered
while the flag is set (in particular never at non-code-0 records inside a
section, and never at any record after `ENDSEC` cleared the flag). -/
theorem claim_section_flag :
    (∀ (groups : List DxfGroup) (i : ℕ) (b : Bool) (g m : DxfGroup),
      groups.get? i = some g → g.code = 0 → g.value = "SECTION" →
      groups.get? (i + 1) = some m →
      parseDxfLoop groups i b =
        parseDxfLoop groups (i + 2) (m.code == 2 && m.value == "ENTITIES")) ∧
    (∀ (groups : List DxfGroup) (i : ℕ) (b : Bool) (g : DxfGroup),
      groups.get? i = some g → g.code = 0 → g.value = "ENDSEC" →
      parseDxfLoop groups i b = parseDxfLoop groups (i + 1) false) ∧
    (∀ (groups : List DxfGroup) (i : ℕ) (b : Bool) (g : DxfGroup),
      groups.get? i = some g →
      ¬(g.code = 0 ∧ g.value = "SECTION") →
      ¬(g.code = 0 ∧ g.value = "ENDSEC") →
      (b = false ∨ g.code ≠ 0) →
      parseDxfLoop groups i b = parseDxfLoop groups (i + 1) b) :=
  ⟨parseDxfLoop_section_step, parseDxfLoop_endsec_step, parseDxfLoop_skip_step⟩

/-- Witness for C8: a concrete `SECTION`/`ENTITIES` pair sets the flag. -/
theorem claim_section_flag_witness :
    parseDxfLoop [⟨0, "SECTION"⟩, ⟨2, "ENTITIES"⟩] 0 false =
      parseDxfLoop [⟨0, "SECTION"⟩, ⟨2, "ENTITIES"⟩] 2 true := by
  have h := claim_section_flag.1 [⟨0, "SECTION"⟩, ⟨2, "ENTITIES"⟩] 0 false
    ⟨0, "SECTION"⟩ ⟨2, "ENTITIES"⟩ rfl rfl rfl rfl
  simpa using h

/-- **C10**: parse terminates on every input: every entity-extraction helper
returns a next index strictly greater than the index it was called at, so
the main walk's cursor strictly increases on each iteration and the loop
over the finite tag list reaches the end; `parseDxf` is total (Lean's
termination checker accepts it with exactly this measure) and always
returns the Document built from the walk. -/
theorem claim_parse_terminates :
    (∀ (groups : List DxfGroup) (i : ℕ), i < (parseSimpleEntity groups i).2) ∧
    (∀ (groups : List DxfGroup) (i : ℕ), i < (parsePolylineEntity groups i).2) ∧
    (∀ (groups : List DxfGroup) (i : ℕ), i < (parseVertex groups i).2) ∧
    (∀ raw : String,
      parseDxf raw = ⟨parseDxfLoop (parseGroups raw) 0 false,
        if raw.data.contains '\x00' then [binaryDxfWarning] else []⟩) :=
  ⟨lt_parseSimpleEntity_snd, lt_parsePolylineEntity_snd, lt_parseVertex_snd,
    fun _ => rfl⟩


/-- Witness for C5: two lines along the x-axis; the vertices at `(0,0)` and
`(1,0)` tie at squared screen distance `1/4` from the query point, and the
later-enumerated `(1,0)` wins. -/
theorem claim_nearest_vertex_witness :
    findNearestVertex ⟨1, 0, 0, 0, 0, 0, 0, 0, 0, 1, 0, 0⟩
      [DxfEntity.line ⟨0, 0⟩ ⟨10, 0⟩, DxfEntity.line ⟨1, 0⟩ ⟨20, 0⟩]
      (1 / 2) 0 5 = some ⟨1, 0⟩ := by
  refine (claim_nearest_vertex _ _ _ _ _).2 [⟨0, 0⟩, ⟨10, 0⟩] [⟨20, 0⟩] ⟨1, 0⟩ ?_ ?_ ?_ ?_
  · simp [collectVertices]
  · norm_num [screenDist2, toScreen, worldToBase, applyViewport, max_def]
  · intro v hv
    fin_cases hv <;>
      norm_num [screenDist2, toScreen, worldToBase, applyViewport]
  · intro v hv
    fin_cases hv <;>
      norm_num [screenDist2, toScreen, worldToBase, applyViewport]

end DxfViewer
